import Mathlib

/-!
Verification of the results-aggregator-and-chart-renderer script
`generate_ieee_figures.py`.

Modelling conventions:
* IEEE-754 doubles are modelled as exact rationals (`ℚ`); every literal
  appearing in the script (`0.5`, `0.001`, `7044`, ...) is exactly
  representable as a double, and the grouping keys are compared with `==`
  in the source, which the rational model reflects faithfully.
* `np.mean`/`np.std` of an empty array yield IEEE NaN; NaN is modelled as
  `none` in `Option ℚ`, a defined rational as `some q`.  `np.std` is the
  nonnegative square root of the population variance (`ddof = 0`), so the
  standard-deviation slot of a summary is represented by its square, the
  population variance, together with the predicate `isPopStd`.
* numpy integer arrays are 64-bit; `2 ** n` for `n ≥ 64` wraps modulo
  `2^64` (two's complement), modelled by `int64wrap`.
* Python exceptions (`FileNotFoundError`, `json.JSONDecodeError`, the
  `savefig` failure on a missing directory) are modelled with `Except`;
  the script contains no `try`/`except`, so the pipeline below is written
  without any handler.
-/

/-- One entry of the `results` collection of
`consciousness_maximum_entanglement_results.json`, as read by the script:
`effective_neurons` (system size), `noise_amplitude` (0 = baseline),
`avg_phi` (measured outcome), `noise_level` (categorical label). -/
structure ResultRecord where
  effective_neurons : ℕ
  noise_amplitude : ℚ
  avg_phi : ℚ
  noise_level : String
deriving DecidableEq, Repr

/-- Arithmetic mean of a list, `np.mean` on a nonempty array. -/
def listMean (l : List ℚ) : ℚ := l.sum / l.length

/-- Population variance (`ddof = 0`), the square of `np.std`. -/
def popVariance (l : List ℚ) : ℚ :=
  (l.map (fun x => (x - listMean l) ^ 2)).sum / l.length

/-- `s` is the value `np.std` returns on `l`: the nonnegative square root
of the population variance. -/
def isPopStd (l : List ℚ) (s : ℚ) : Prop := 0 ≤ s ∧ s ^ 2 = popVariance l

/-- `np.mean` including its empty-array behaviour: the mean of an empty
array is NaN, modelled as `none`. -/
def npMean (l : List ℚ) : Option ℚ :=
  if l.isEmpty then none else some (listMean l)

/-- `np.std` squared, including its empty-array behaviour (NaN = `none`). -/
def npVarOpt (l : List ℚ) : Option ℚ :=
  if l.isEmpty then none else some (popVariance l)

/-- `sizes = [64, 81, 243, 729]` (line 43): the declared key sequence of
the per-size aggregation. -/
def sizes : List ℕ := [64, 81, 243, 729]

/-- `noise_values = [0.0, 0.5, 1.0, 2.0, 5.0, 10.0, 20.0]` (line 80): the
declared key sequence of the per-noise aggregation. -/
def noise_values : List ℚ := [0, 1/2, 1, 2, 5, 10, 20]

/-- The per-size filter (line 51):
`r['effective_neurons'] == size and r['noise_amplitude'] > 0`. -/
def sizeFilter (size : ℕ) (r : ResultRecord) : Bool :=
  r.effective_neurons == size && decide (r.noise_amplitude > 0)

/-- `size_results` (lines 50-51): the `avg_phi` values of the records
matching a given size under the per-size filter. -/
def size_results (results : List ResultRecord) (size : ℕ) : List ℚ :=
  (results.filter (sizeFilter size)).map (fun r => r.avg_phi)

/-- The summary mean appended for one size (lines 52-56):
`np.mean(size_results)` when the list is nonempty, else the literal `0`. -/
def sizeMeanSummary (results : List ResultRecord) (size : ℕ) : ℚ :=
  if (size_results results size).isEmpty then 0
  else listMean (size_results results size)

/-- The square of the summary std appended for one size (lines 52-57):
`np.std(size_results)` when the list is nonempty, else the literal `0`
(and `0 ^ 2 = 0`). -/
def sizeVarSummary (results : List ResultRecord) (size : ℕ) : ℚ :=
  if (size_results results size).isEmpty then 0
  else popVariance (size_results results size)

/-- `phi_by_size` (lines 47-56). -/
def phi_by_size (results : List ResultRecord) : List ℚ :=
  sizes.map (sizeMeanSummary results)

/-- `phi_std_by_size` (lines 48-57), each entry squared. -/
def phi_std_sq_by_size (results : List ResultRecord) : List ℚ :=
  sizes.map (sizeVarSummary results)

/-- The per-noise filter (line 87): `r['noise_amplitude'] == noise_amp`. -/
def noiseFilter (amp : ℚ) (r : ResultRecord) : Bool :=
  r.noise_amplitude == amp

/-- `noise_results` (lines 86-87): the `avg_phi` values of the records
with the given noise amplitude. -/
def noise_results (results : List ResultRecord) (amp : ℚ) : List ℚ :=
  (results.filter (noiseFilter amp)).map (fun r => r.avg_phi)

/-- `phi_by_noise` (lines 83-88): `np.mean` of each group, with NO
empty-group guard, so an empty group contributes NaN (`none`). -/
def phi_by_noise (results : List ResultRecord) : List (Option ℚ) :=
  noise_values.map (fun amp => npMean (noise_results results amp))

/-- `phi_std_by_noise` (lines 84-89) squared: `np.std` of each group,
again with no empty-group guard. -/
def phi_std_sq_by_noise (results : List ResultRecord) : List (Option ℚ) :=
  noise_values.map (fun amp => npVarOpt (noise_results results amp))

/-- The scan of `np.argmax` specialised to a possibly-NaN array
(`none` = NaN): numpy keeps the running best and replaces it when the
current element is strictly greater or is NaN, stopping at the first NaN.
Arguments: remaining list, index of its head, best index, best value. -/
def argmaxGo : List (Option ℚ) → ℕ → ℕ → ℚ → ℕ
  | [], _, bi, _ => bi
  | none :: _, i, _, _ => i
  | some v :: xs, i, bi, bv =>
    if v > bv then argmaxGo xs (i + 1) i v else argmaxGo xs (i + 1) bi bv

/-- `np.argmax`: index of the first NaN if one occurs, otherwise the first
index attaining the maximum; `0` on an empty array (numpy raises there,
which no claim touches). -/
def np_argmax : List (Option ℚ) → ℕ
  | [] => 0
  | none :: _ => 0
  | some v :: xs => argmaxGo xs 1 0 v

/-- `optimal_idx = np.argmax(phi_by_noise)` (line 102); bar
`optimal_idx` is the one whose edge is highlighted (lines 103-104). -/
def optimal_idx (results : List ResultRecord) : ℕ :=
  np_argmax (phi_by_noise results)

/-- The panel-C filter (line 111): `r['noise_amplitude'] > 0`. -/
def quantumFilter (r : ResultRecord) : Bool :=
  decide (r.noise_amplitude > 0)

/-- `quantum_configs` (lines 110-113): the
`(effective_neurons, noise_level, avg_phi)` triples of the records with
positive noise amplitude, sorted by the size component
(`quantum_configs.sort(key=lambda x: x[0])`, a stable sort). -/
def quantum_configs (results : List ResultRecord) : List (ℕ × String × ℚ) :=
  ((results.filter quantumFilter).map
      (fun r => (r.effective_neurons, r.noise_level, r.avg_phi))).mergeSort
    (fun a b => a.1 ≤ b.1)

/-- `classical_phi = [0.0] * len(quantum_configs)` (line 116). -/
def classical_phi (results : List ResultRecord) : List ℚ :=
  List.replicate (quantum_configs results).length 0

/-- `quantum_phi = [c[2] for c in quantum_configs]` (line 117). -/
def quantum_phi (results : List ResultRecord) : List ℚ :=
  (quantum_configs results).map (fun c => c.2.2)

/-- `n_range = np.array([10, 50, 100, 200, 500, 1000])` (line 144). -/
def n_range : List ℕ := [10, 50, 100, 200, 500, 1000]

/-- The cubic reference curve (line 145):
`(n / 729)**3 * 7044`, calibrated by the literal pair `(729, 7044)`. -/
def runtime_cubic (n : ℚ) : ℚ := (n / 729) ^ 3 * 7044

/-- Two's-complement wraparound of a 64-bit numpy integer. -/
def int64wrap (z : ℤ) : ℤ := (z + 2 ^ 63) % 2 ^ 64 - 2 ^ 63

/-- The exponential reference curve (line 148): `2**n_range * 0.001`.
`n_range` is an int64 array, so `2 ** n` wraps modulo `2^64` before the
float multiplication by the literal coefficient `0.001`. -/
def runtime_exponential (n : ℕ) : ℚ := (int64wrap (2 ^ n) : ℚ) * (1 / 1000)

/-- The two theoretical series of panel D (lines 144-148), written as a
function of the loaded records that are in scope at that point in the
script: the source block reads only `n_range` and literal constants, so
the records argument is unused. -/
def panelD_series (results : List ResultRecord) : List ℚ × List ℚ :=
  (n_range.map (fun n => runtime_cubic (n : ℚ)),
   n_range.map runtime_exponential)

/-- The kinds of theoretical reference curve appearing in the script. -/
inductive RefCurveKind
  | cubic
  | exponential
deriving DecidableEq, Repr

/-- What one panel of Figure 1 draws: whether its plotted series are
statistics over the loaded records, and which theoretical reference
curves it computes. -/
structure PanelSpec where
  usesLoadedRecords : Bool
  refCurves : List RefCurveKind
deriving DecidableEq, Repr

/-- Panel A (lines 42-75): errorbar plot of `phi_by_size`; no reference
curve. -/
def panelA_spec : PanelSpec := ⟨true, []⟩

/-- Panel B (lines 78-104): bar plot of `phi_by_noise` with highlight; no
reference curve. -/
def panelB_spec : PanelSpec := ⟨true, []⟩

/-- Panel C (lines 107-138): grouped bars of `classical_phi` and
`quantum_phi`; no reference curve. -/
def panelC_spec : PanelSpec := ⟨true, []⟩

/-- Panel D (lines 141-169): log-log plot of `runtime_cubic` and
`runtime_exponential`, which are computed from literals only. -/
def panelD_spec : PanelSpec := ⟨false, [.cubic, .exponential]⟩

/-- The four panels of Figure 1, in source order. -/
def figure1_panels : List PanelSpec :=
  [panelA_spec, panelB_spec, panelC_spec, panelD_spec]

/-- The two unhandled failure kinds of the script: `DataLoadError` for a
missing/unreadable/malformed input file (lines 28-29) and `WriteError`
for `savefig` into a nonexistent directory (lines 171, 229, 370). -/
inductive ScriptError
  | dataLoadError
  | writeError
deriving DecidableEq, Repr

/-- The state of the input file as the script finds it: the three failure
modes of `open`/`json.load`, or a well-formed file whose `results` field
holds the record collection. -/
inductive InputFile
  | missing
  | unreadable
  | malformed
  | wellFormed (records : List ResultRecord)
deriving DecidableEq, Repr

/-- Lines 28-31: `open` + `json.load` + `data['results']`.  Any of the
three failure modes raises (modelled `DataLoadError`); nothing catches
it. -/
def load : InputFile → Except ScriptError (List ResultRecord)
  | .wellFormed records => .ok records
  | _ => .error .dataLoadError

/-- `plt.savefig(path)`: fails with `WriteError` when the output
directory does not exist, otherwise records the written file. -/
def savefig (dirExists : Bool) (path : String) : Except ScriptError String :=
  if dirExists then .ok path else .error .writeError

/-- The whole script as one catch-free pipeline: load the records,
compute every figure's series from them, and save the three figures in
source order (lines 171, 229, 370).  `Except` models Python exception
propagation; since the source has no `try`/`except`, no handler appears
here either.  The result is the list of files written. -/
def script (input : InputFile) (dirExists : Bool) :
    Except ScriptError (List String) := do
  let results ← load input
  let _figure1 :=
    (phi_by_size results, phi_std_sq_by_size results,
     phi_by_noise results, phi_std_sq_by_noise results,
     optimal_idx results, classical_phi results, quantum_phi results,
     panelD_series results)
  let f1 ← savefig dirExists "simulated_results.png"
  let f2 ← savefig dirExists "hierarchical_structure.png"
  let f3 ← savefig dirExists "topological_invariants.png"
  return [f1, f2, f3]

/-- One data series handed to a plotting call; per-noise series may
contain NaN (`none`). -/
abbrev Series : Type := List (Option ℚ)

/-- The script's state while Figure 1 is generated: the record collection
loaded at line 31 and the series drawn so far. -/
structure ScriptState where
  records : List ResultRecord
  drawn : List Series

/-- Panel A (lines 42-75): draws the per-size means and stds computed
from the state's records; the records themselves are untouched. -/
def panelA_step (s : ScriptState) : ScriptState :=
  { s with drawn := s.drawn ++
      [(phi_by_size s.records).map some,
       (phi_std_sq_by_size s.records).map some] }

/-- Panel B (lines 78-104). -/
def panelB_step (s : ScriptState) : ScriptState :=
  { s with drawn := s.drawn ++
      [phi_by_noise s.records, phi_std_sq_by_noise s.records] }

/-- Panel C (lines 107-138). -/
def panelC_step (s : ScriptState) : ScriptState :=
  { s with drawn := s.drawn ++
      [(classical_phi s.records).map some,
       (quantum_phi s.records).map some] }

/-- Panel D (lines 141-169). -/
def panelD_step (s : ScriptState) : ScriptState :=
  { s with drawn := s.drawn ++
      [((panelD_series s.records).1).map some,
       ((panelD_series s.records).2).map some] }

/-- The four chart-generation steps of Figure 1, in source order. -/
def chartSteps : List (ScriptState → ScriptState) :=
  [panelA_step, panelB_step, panelC_step, panelD_step]

/-- Running all chart steps on the freshly loaded collection. -/
def runCharts (records : List ResultRecord) : ScriptState :=
  chartSteps.foldl (fun s f => f s) ⟨records, []⟩

/-- `o.getD 0`: reads a defined mean out of an `Option ℚ`; every claim
using it carries the hypothesis that no NaN occurs. -/
def val (o : Option ℚ) : ℚ := o.getD 0

/-- `idx` is a correct first-argmax position for the array `l`: it is in
range, no entry exceeds the entry at `idx`, and every earlier entry is
strictly smaller. -/
def ArgmaxOk (l : List (Option ℚ)) (idx : ℕ) : Prop :=
  idx < l.length ∧
  (∀ j, j < l.length → val (l.getD j none) ≤ val (l.getD idx none)) ∧
  (∀ j, j < idx → val (l.getD j none) < val (l.getD idx none))

/-- The summaries of the size group `size` and the noise group `amp` are
the statistics of exactly their matching subsets: the computed means are
the arithmetic means, the computed stds are the population stds (stated
through their squares and `isPopStd`), a singleton subset forces std `0`,
and the subset `[0.02, 0.04]` forces mean `0.03` and std `0.01`. -/
def GroupSummaryOk (results : List ResultRecord) (size : ℕ) (amp : ℚ) : Prop :=
  sizeMeanSummary results size = listMean (size_results results size) ∧
  sizeVarSummary results size = popVariance (size_results results size) ∧
  npMean (noise_results results amp) =
    some (listMean (noise_results results amp)) ∧
  npVarOpt (noise_results results amp) =
    some (popVariance (noise_results results amp)) ∧
  (∀ x : ℚ, size_results results size = [x] →
    ∀ s : ℚ, isPopStd (size_results results size) s → s = 0) ∧
  (size_results results size = [2/100, 4/100] →
    listMean (size_results results size) = 3/100 ∧
    isPopStd (size_results results size) (1/100))

/-- The `i`-th per-size summary is the summary of the `i`-th declared
size. -/
def SizeAligned (results : List ResultRecord) (i : ℕ) : Prop :=
  (phi_by_size results).getD i 37 = sizeMeanSummary results (sizes.getD i 0) ∧
  (phi_std_sq_by_size results).getD i 37 = sizeVarSummary results (sizes.getD i 0)

/-- The `i`-th per-noise summary is the summary of the `i`-th declared
noise amplitude. -/
def NoiseAligned (results : List ResultRecord) (i : ℕ) : Prop :=
  (phi_by_noise results).getD i none =
    npMean (noise_results results (noise_values.getD i 37)) ∧
  (phi_std_sq_by_noise results).getD i none =
    npVarOpt (noise_results results (noise_values.getD i 37))

theorem popVariance_singleton (x : ℚ) : popVariance [x] = 0 := by
  simp [popVariance, listMean]

theorem isEmpty_false_of_ne_nil {l : List ℚ} (h : l ≠ []) :
    l.isEmpty = false := by
  cases l with
  | nil => exact absurd rfl h
  | cons a as => rfl

/-- C1: the claim states that EVERY empty group — per-size and per-noise —
yields the summary `(0, 0)`.  The per-noise loop (lines 85-89) has no
empty-group guard: with no loaded records, the group at amplitude `0.0`
(and every other) is `np.mean([])`, which is NaN (`none`), not `0`. -/
theorem C1_counterexample :
    phi_by_noise [] = [none, none, none, none, none, none, none] ∧
    (none : Option ℚ) ≠ some 0 := ⟨rfl, by simp⟩

/-- C1 (amended): per-size empty groups yield the summary `(0, 0)`
(lines 55-57); per-noise empty groups yield NaN mean and std instead; in
both aggregations no group is omitted, so the emitted summary sequences
always have exactly the lengths of the declared key sequences (4 sizes,
7 noise amplitudes). -/
theorem C1_empty_group_policy (results : List ResultRecord) :
    (phi_by_size results).length = sizes.length ∧
    (phi_std_sq_by_size results).length = sizes.length ∧
    (phi_by_noise results).length = noise_values.length ∧
    (phi_std_sq_by_noise results).length = noise_values.length ∧
    (∀ size : ℕ, size_results results size = [] →
      sizeMeanSummary results size = 0 ∧ sizeVarSummary results size = 0) ∧
    (∀ amp : ℚ, noise_results results amp = [] →
      npMean (noise_results results amp) = none ∧
      npVarOpt (noise_results results amp) = none) := by
  refine ⟨by simp [phi_by_size], by simp [phi_std_sq_by_size],
    by simp [phi_by_noise], by simp [phi_std_sq_by_noise], ?_, ?_⟩
  · intro size hsize
    constructor
    · simp [sizeMeanSummary, hsize]
    · simp [sizeVarSummary, hsize]
  · intro amp hamp
    constructor
    · simp [npMean, hamp]
    · simp [npVarOpt, hamp]

theorem C1_empty_group_policy_witness :
    size_results [] 64 = [] ∧ noise_results [] 0 = [] ∧
    (sizeMeanSummary [] 64 = 0 ∧ sizeVarSummary [] 64 = 0) ∧
    (npMean (noise_results [] 0) = none ∧
      npVarOpt (noise_results [] 0) = none) :=
  ⟨rfl, rfl, (C1_empty_group_policy []).2.2.2.2.1 64 rfl,
    (C1_empty_group_policy []).2.2.2.2.2 0 rfl⟩

/-- C2: a loaded record with `noise_amplitude == 0` is excluded from the
per-size aggregation (its filter at line 51 demands
`noise_amplitude > 0`) and included in the per-noise aggregation in the
group keyed `0.0` (line 87). -/
theorem C2_baseline_filtering (results : List ResultRecord)
    (r : ResultRecord) (hmem : r ∈ results) (h0 : r.noise_amplitude = 0) :
    (∀ size : ℕ, r ∉ results.filter (sizeFilter size)) ∧
    r ∈ results.filter (noiseFilter 0) ∧
    r.avg_phi ∈ noise_results results 0 := by
  have hnoise : noiseFilter 0 r = true := by simp [noiseFilter, h0]
  refine ⟨?_, List.mem_filter.2 ⟨hmem, hnoise⟩, ?_⟩
  · intro size hr
    have hflt := (List.mem_filter.1 hr).2
    simp [sizeFilter, h0] at hflt
  · exact List.mem_map.2 ⟨r, List.mem_filter.2 ⟨hmem, hnoise⟩, rfl⟩

def recC2 : ResultRecord := ⟨64, 0, 1/100, "Baseline"⟩

theorem C2_baseline_filtering_witness :
    recC2 ∈ [recC2] ∧ recC2.noise_amplitude = 0 ∧
    ((∀ size : ℕ, recC2 ∉ [recC2].filter (sizeFilter size)) ∧
      recC2 ∈ [recC2].filter (noiseFilter 0) ∧
      recC2.avg_phi ∈ noise_results [recC2] 0) :=
  ⟨List.mem_singleton.2 rfl, rfl,
    C2_baseline_filtering [recC2] recC2 (List.mem_singleton.2 rfl) rfl⟩

/-- C3: for a group with a nonempty matching subset the computed mean is
the arithmetic mean of exactly that subset and the computed std is its
population standard deviation; a singleton subset has std `0`; the subset
`[0.02, 0.04]` has mean `0.03` and std `0.01`. -/
theorem C3_nonempty_group_stats (results : List ResultRecord)
    (size : ℕ) (amp : ℚ)
    (hs : size_results results size ≠ [])
    (hn : noise_results results amp ≠ []) :
    GroupSummaryOk results size amp := by
  have hs' := isEmpty_false_of_ne_nil hs
  have hn' := isEmpty_false_of_ne_nil hn
  refine ⟨by simp [sizeMeanSummary, hs'], by simp [sizeVarSummary, hs'],
    by simp [npMean, hn'], by simp [npVarOpt, hn'], ?_, ?_⟩
  · intro x hx s hstd
    have h2 := hstd.2
    rw [hx, popVariance_singleton] at h2
    exact pow_eq_zero_iff (by norm_num) |>.mp h2
  · intro hpair
    constructor
    · rw [hpair]; norm_num [listMean]
    · refine ⟨by norm_num, ?_⟩
      rw [hpair]
      norm_num [popVariance, listMean]

def recsC3 : List ResultRecord :=
  [⟨64, 1/2, 2/100, "Low"⟩, ⟨64, 1, 4/100, "Medium"⟩]

theorem C3_nonempty_group_stats_witness :
    size_results recsC3 64 ≠ [] ∧ noise_results recsC3 (1/2) ≠ [] ∧
    GroupSummaryOk recsC3 64 (1/2) :=
  ⟨fun h => by
      norm_num [size_results, sizeFilter, recsC3, List.filter_cons] at h
      exact List.cons_ne_nil _ _ h,
    fun h => by
      norm_num [noise_results, noiseFilter, recsC3, List.filter_cons] at h,
    C3_nonempty_group_stats recsC3 64 (1/2)
      (fun h => by
        norm_num [size_results, sizeFilter, recsC3, List.filter_cons] at h
        exact List.cons_ne_nil _ _ h)
      (fun h => by
        norm_num [noise_results, noiseFilter, recsC3, List.filter_cons] at h)⟩

/-- C7: summaries are emitted in declared key order — the `i`-th per-size
summary is the summary of `sizes[i]` and the `i`-th per-noise summary is
the summary of `noise_values[i]`, for every record collection. -/
theorem C7_declared_key_order (results : List ResultRecord) :
    (∀ i, i < sizes.length → SizeAligned results i) ∧
    (∀ i, i < noise_values.length → NoiseAligned results i) := by
  constructor
  · intro i hi
    have hi' : i < 4 := by simpa [sizes] using hi
    interval_cases i <;> exact ⟨rfl, rfl⟩
  · intro i hi
    have hi' : i < 7 := by simpa [noise_values] using hi
    interval_cases i <;> exact ⟨rfl, rfl⟩

theorem C7_declared_key_order_witness :
    (0 : ℕ) < sizes.length ∧ (0 : ℕ) < noise_values.length ∧
    SizeAligned [] 0 ∧ NoiseAligned [] 0 :=
  ⟨by simp [sizes], by simp [noise_values],
    (C7_declared_key_order []).1 0 (by simp [sizes]),
    (C7_declared_key_order []).2 0 (by simp [noise_values])⟩

/-- C4: the claim says TWO of the four charts compute the theoretical
reference curves.  In the source both the cubic and the exponential curve
are computed by a single chart, panel D (lines 141-158); panels A-C plot
only statistics of the loaded records.  So the number of charts with
reference curves is 1, not 2. -/
theorem C4_counterexample :
    figure1_panels.countP (fun p => !p.refCurves.isEmpty) = 1 ∧
    (1 : ℕ) ≠ 2 := ⟨by decide, by decide⟩

/-- C4 (amended): exactly one of the four charts — the log-log runtime
chart, panel D — computes theoretical reference curves, and it computes
both of them: a cubic-scaling curve calibrated by the single literal
runtime/size pair `(729, 7044)` and an exponential-scaling curve scaled
by the literal coefficient `0.001`; both are closed-form in the system
size and are constructed independently of the loaded records. -/
theorem C4_reference_curve_chart :
    figure1_panels.countP (fun p => !p.refCurves.isEmpty) = 1 ∧
    panelD_spec.refCurves = [RefCurveKind.cubic, RefCurveKind.exponential] ∧
    panelD_spec.usesLoadedRecords = false ∧
    runtime_cubic 729 = 7044 ∧
    (∀ n : ℚ, runtime_cubic n = (n / 729) ^ 3 * 7044) ∧
    (∀ n : ℕ, runtime_exponential n = (int64wrap (2 ^ n) : ℚ) * (1 / 1000)) ∧
    (∀ rs rs' : List ResultRecord, panelD_series rs = panelD_series rs') :=
  ⟨by decide, rfl, rfl, by norm_num [runtime_cubic],
    fun n => rfl, fun n => rfl, fun rs rs' => rfl⟩

/-- C5: the reference curves are pure functions of the size input given
the fixed calibration constants — the panel-D series do not depend on the
loaded records, and evaluating them under any two record collections
gives identical values. -/
theorem C5_reference_curves_pure (rs rs' : List ResultRecord) :
    panelD_series rs = panelD_series rs' ∧
    (panelD_series rs).1 = n_range.map (fun n => runtime_cubic (n : ℚ)) ∧
    (panelD_series rs).2 = n_range.map runtime_exponential :=
  ⟨rfl, rfl, rfl⟩

/-- C6: a missing/unreadable/malformed input makes the pipeline stop with
`DataLoadError`; a nonexistent output directory makes it stop with
`WriteError`; no handler intervenes (the source has no `try`/`except`),
and the pipeline never produces a partial file list: it either fails or
writes all three figures. -/
theorem C6_fatal_unrecovered_errors (input : InputFile) (dirExists : Bool) :
    ((∀ records, input ≠ .wellFormed records) →
      script input dirExists = .error .dataLoadError) ∧
    (dirExists = false → ∀ records, input = .wellFormed records →
      script input dirExists = .error .writeError) ∧
    (∀ files, script input dirExists = .ok files →
      files = ["simulated_results.png", "hierarchical_structure.png",
        "topological_invariants.png"] ∧ dirExists = true) := by
  refine ⟨?_, ?_, ?_⟩
  · intro h
    cases input with
    | missing => rfl
    | unreadable => rfl
    | malformed => rfl
    | wellFormed records => exact absurd rfl (h records)
  · rintro rfl records rfl
    rfl
  · intro files hfiles
    cases input with
    | wellFormed records =>
      cases dirExists with
      | true =>
        refine ⟨?_, rfl⟩
        injection hfiles with h
        exact h.symm
      | false => exact Except.noConfusion hfiles
    | missing => exact Except.noConfusion hfiles
    | unreadable => exact Except.noConfusion hfiles
    | malformed => exact Except.noConfusion hfiles

theorem C6_fatal_unrecovered_errors_witness :
    (∀ records, InputFile.missing ≠ InputFile.wellFormed records) ∧
    script .missing true = .error .dataLoadError ∧
    script (.wellFormed []) false = .error .writeError ∧
    (script (.wellFormed []) true =
        .ok ["simulated_results.png", "hierarchical_structure.png",
          "topological_invariants.png"] ∧
      (["simulated_results.png", "hierarchical_structure.png",
          "topological_invariants.png"] =
          ["simulated_results.png", "hierarchical_structure.png",
            "topological_invariants.png"] ∧ true = true)) :=
  ⟨fun records h => InputFile.noConfusion h,
    (C6_fatal_unrecovered_errors .missing true).1
      (fun records h => InputFile.noConfusion h),
    (C6_fatal_unrecovered_errors (.wellFormed []) false).2.1 rfl [] rfl,
    rfl,
    (C6_fatal_unrecovered_errors (.wellFormed []) true).2.2 _ rfl⟩

/-- C8: no chart-generation step mutates, deletes, or appends a record:
each panel step leaves the `records` component of the script state
untouched, running all four charts on the loaded collection returns it
unchanged, and the series each chart hands to its plotting call are
computed from exactly that collection. -/
theorem C8_records_read_only (s : ScriptState) (records : List ResultRecord) :
    (panelA_step s).records = s.records ∧
    (panelB_step s).records = s.records ∧
    (panelC_step s).records = s.records ∧
    (panelD_step s).records = s.records ∧
    (runCharts records).records = records ∧
    (runCharts records).drawn =
      [(phi_by_size records).map some,
       (phi_std_sq_by_size records).map some,
       phi_by_noise records, phi_std_sq_by_noise records,
       (classical_phi records).map some, (quantum_phi records).map some,
       ((panelD_series records).1).map some,
       ((panelD_series records).2).map some] :=
  ⟨rfl, rfl, rfl, rfl, rfl, rfl⟩

/-- C10: in the quantum-vs-classical chart the classical series is
identically `0.0` and as long as the number of records with positive
noise amplitude, the quantum series is exactly the `avg_phi` values of
those records (as a multiset), and the triples are presented sorted in
non-decreasing order of `effective_neurons`. -/
theorem C10_quantum_classical_series (results : List ResultRecord) :
    (classical_phi results).length =
      (results.filter quantumFilter).length ∧
    classical_phi results =
      List.replicate (results.filter quantumFilter).length 0 ∧
    (quantum_phi results).Perm
      ((results.filter quantumFilter).map (fun r => r.avg_phi)) ∧
    (quantum_configs results).Pairwise (fun a b => a.1 ≤ b.1) := by
  have hlen : (quantum_configs results).length =
      (results.filter quantumFilter).length := by
    simp [quantum_configs]
  have hperm :
      (quantum_configs results).Perm
        ((results.filter quantumFilter).map
          (fun r => (r.effective_neurons, r.noise_level, r.avg_phi))) :=
    List.mergeSort_perm _ _
  refine ⟨by simp [classical_phi, hlen], by rw [classical_phi, hlen], ?_, ?_⟩
  · have := hperm.map (fun c : ℕ × String × ℚ => c.2.2)
    simpa [quantum_phi, List.map_map, Function.comp] using this
  · have hsorted := @List.sorted_mergeSort (ℕ × String × ℚ)
      (fun a b => decide (a.1 ≤ b.1))
      (fun a b c hab hbc => by
        simp only [decide_eq_true_eq] at hab hbc ⊢
        exact le_trans hab hbc)
      (fun a b => by
        simp only [Bool.or_eq_true, decide_eq_true_eq]
        exact Nat.le_total a.1 b.1)
      ((results.filter quantumFilter).map
        (fun r => (r.effective_neurons, r.noise_level, r.avg_phi)))
    refine List.Pairwise.imp ?_ hsorted
    intro a b hab
    simpa using hab

theorem val_some (v : ℚ) : val (some v) = v := rfl

/-- Invariant of the `np.argmax` scan on a NaN-free suffix: either the
incoming best survives and bounds every element, or the scan lands on the
first element that strictly exceeds the incoming best and every earlier
element, and weakly bounds every later one. -/
theorem argmaxGo_spec (xs : List (Option ℚ)) :
    ∀ (i bi : ℕ) (bv : ℚ), (∀ o ∈ xs, o ≠ none) →
    (argmaxGo xs i bi bv = bi ∧
      ∀ k, k < xs.length → val (xs.getD k none) ≤ bv) ∨
    (∃ k, k < xs.length ∧ argmaxGo xs i bi bv = i + k ∧
      bv < val (xs.getD k none) ∧
      (∀ j, j < k → val (xs.getD j none) < val (xs.getD k none)) ∧
      (∀ j, k < j → j < xs.length →
        val (xs.getD j none) ≤ val (xs.getD k none))) := by
  induction xs with
  | nil =>
    intro i bi bv _
    left
    exact ⟨rfl, fun k hk => absurd hk (Nat.not_lt_zero k)⟩
  | cons x xs ih =>
    intro i bi bv h
    obtain ⟨v, rfl⟩ : ∃ v, x = some v := by
      cases x with
      | none => exact absurd rfl (h none (List.mem_cons_self _ _))
      | some v => exact ⟨v, rfl⟩
    have hxs : ∀ o ∈ xs, o ≠ none := fun o ho => h o (List.mem_cons_of_mem _ ho)
    by_cases hv : v > bv
    · have hgo : argmaxGo (some v :: xs) i bi bv = argmaxGo xs (i + 1) i v := by
        simp [argmaxGo, hv]
      rcases ih (i + 1) i v hxs with ⟨heq, hle⟩ | ⟨k, hk, heq, hgt, hbef, haft⟩
      · right
        refine ⟨0, by simp, by rw [hgo, heq]; omega, ?_, ?_, ?_⟩
        · simp only [List.getD_cons_zero, val_some]
          exact hv
        · intro j hj
          exact absurd hj (Nat.not_lt_zero j)
        · intro j h0j hjlen
          obtain ⟨j', rfl⟩ : ∃ j', j = j' + 1 := ⟨j - 1, by omega⟩
          simp only [List.getD_cons_zero, List.getD_cons_succ, val_some]
          exact hle j' (by simpa using hjlen)
      · right
        refine ⟨k + 1, by simpa using Nat.succ_lt_succ hk, ?_, ?_, ?_, ?_⟩
        · rw [hgo, heq]; omega
        · simp only [List.getD_cons_succ]
          exact lt_trans hv hgt
        · intro j hj
          cases j with
          | zero =>
            simp only [List.getD_cons_zero, List.getD_cons_succ, val_some]
            exact hgt
          | succ j' =>
            simp only [List.getD_cons_succ]
            exact hbef j' (by omega)
        · intro j hkj hjlen
          obtain ⟨j', rfl⟩ : ∃ j', j = j' + 1 := ⟨j - 1, by omega⟩
          simp only [List.getD_cons_succ]
          exact haft j' (by omega) (by simpa using hjlen)
    · have hv' : v ≤ bv := not_lt.mp hv
      have hgo : argmaxGo (some v :: xs) i bi bv = argmaxGo xs (i + 1) bi bv := by
        simp [argmaxGo, hv]
      rcases ih (i + 1) bi bv hxs with ⟨heq, hle⟩ | ⟨k, hk, heq, hgt, hbef, haft⟩
      · left
        refine ⟨by rw [hgo, heq], ?_⟩
        intro k hk
        cases k with
        | zero =>
          simp only [List.getD_cons_zero, val_some]
          exact hv'
        | succ k' =>
          simp only [List.getD_cons_succ]
          exact hle k' (by simpa using hk)
      · right
        refine ⟨k + 1, by simpa using Nat.succ_lt_succ hk, ?_, ?_, ?_, ?_⟩
        · rw [hgo, heq]; omega
        · simp only [List.getD_cons_succ]
          exact hgt
        · intro j hj
          cases j with
          | zero =>
            simp only [List.getD_cons_zero, List.getD_cons_succ, val_some]
            exact lt_of_le_of_lt hv' hgt
          | succ j' =>
            simp only [List.getD_cons_succ]
            exact hbef j' (by omega)
        · intro j hkj hjlen
          obtain ⟨j', rfl⟩ : ∃ j', j = j' + 1 := ⟨j - 1, by omega⟩
          simp only [List.getD_cons_succ]
          exact haft j' (by omega) (by simpa using hjlen)

/-- `np.argmax` on a nonempty, NaN-free array returns the position of the
maximum, with earlier positions strictly smaller (first occurrence wins
ties). -/
theorem np_argmax_spec (l : List (Option ℚ)) (hne : l ≠ [])
    (h : ∀ o ∈ l, o ≠ none) : ArgmaxOk l (np_argmax l) := by
  cases l with
  | nil => exact absurd rfl hne
  | cons x xs =>
    obtain ⟨v, rfl⟩ : ∃ v, x = some v := by
      cases x with
      | none => exact absurd rfl (h none (List.mem_cons_self _ _))
      | some v => exact ⟨v, rfl⟩
    have hxs : ∀ o ∈ xs, o ≠ none := fun o ho => h o (List.mem_cons_of_mem _ ho)
    have hnp : np_argmax (some v :: xs) = argmaxGo xs 1 0 v := rfl
    rcases argmaxGo_spec xs 1 0 v hxs with ⟨heq, hle⟩ | ⟨k, hk, heq, hgt, hbef, haft⟩
    · refine ⟨?_, ?_, ?_⟩
      · rw [hnp, heq]; simp
      · intro j hj
        rw [hnp, heq]
        cases j with
        | zero => exact le_refl _
        | succ j' =>
          simp only [List.getD_cons_zero, List.getD_cons_succ, val_some]
          exact hle j' (by simpa using hj)
      · intro j hj
        rw [hnp, heq] at hj
        exact absurd hj (Nat.not_lt_zero j)
    · have heq' : np_argmax (some v :: xs) = k + 1 := by rw [hnp, heq]; omega
      refine ⟨?_, ?_, ?_⟩
      · rw [heq']
        simpa using Nat.succ_lt_succ hk
      · intro j hj
        rw [heq']
        cases j with
        | zero =>
          simp only [List.getD_cons_zero, List.getD_cons_succ, val_some]
          exact le_of_lt hgt
        | succ j' =>
          simp only [List.getD_cons_succ]
          have hj' : j' < xs.length := by simpa using hj
          rcases lt_trichotomy j' k with hlt | hjk | hgt'
          · exact le_of_lt (hbef j' hlt)
          · rw [hjk]
          · exact haft j' hgt' hj'
      · intro j hj
        rw [heq'] at hj
        rw [heq']
        cases j with
        | zero =>
          simp only [List.getD_cons_zero, List.getD_cons_succ, val_some]
          exact hgt
        | succ j' =>
          simp only [List.getD_cons_succ]
          exact hbef j' (by omega)

/-- C9: when every per-noise group is nonempty (so every per-noise mean
is defined), the highlighted bar `optimal_idx` sits at the position of
the maximal per-noise mean, and on ties the earliest-declared noise level
wins: every earlier bar is strictly smaller. -/
theorem C9_highlighted_bar_first_argmax (results : List ResultRecord)
    (h : ∀ o ∈ phi_by_noise results, o ≠ none) :
    ArgmaxOk (phi_by_noise results) (optimal_idx results) := by
  have hne : phi_by_noise results ≠ [] := by
    simp [phi_by_noise, noise_values]
  exact np_argmax_spec _ hne h

def recsC9 : List ResultRecord :=
  [⟨64, 0, 1/100, "Baseline"⟩, ⟨64, 1/2, 2/100, "Low"⟩,
   ⟨64, 1, 3/100, "Medium"⟩, ⟨64, 2, 5/100, "High"⟩,
   ⟨64, 5, 4/100, "Very High"⟩, ⟨64, 10, 2/100, "Extreme"⟩,
   ⟨64, 20, 1/100, "MAXIMUM"⟩]

theorem C9_highlighted_bar_first_argmax_witness :
    (∀ o ∈ phi_by_noise recsC9, o ≠ none) ∧
    ArgmaxOk (phi_by_noise recsC9) (optimal_idx recsC9) :=
  ⟨by
    norm_num [phi_by_noise, noise_values, npMean, noise_results, noiseFilter,
      recsC9, List.filter_cons]
    simp,
    C9_highlighted_bar_first_argmax recsC9 (by
      norm_num [phi_by_noise, noise_values, npMean, noise_results, noiseFilter,
        recsC9, List.filter_cons]
      simp)⟩
